import Mathlib

/-!
Shallow embedding of the EngineRoom stock-quote resolution pipeline
(`src/api/stock_quote.py` and `src/api/stock_quote_tiingo.py`).

Conventions of the embedding:

* All wall-clock times are absolute minutes on the US/Eastern timeline
  (an integer; one day is 1440 minutes, so 09:30 on day `d` is
  `d * 1440 + 570`).  Timezone conversions (`tz_convert`, `pytz`
  localisation) change only the rendering of an instant, never the
  instant itself, so they are identities in this model.  `strftime`
  rendering of a selected timestamp is injective on instants and is
  represented by the instant itself.
* Parsed JSON documents are values of the inductive `JVal`; JSON numbers
  are rationals.  Python `float` prices are modelled as rationals, and
  `str(price)` is modelled by `pyStr` (the exact decimal rendering is
  irrelevant to every property proved here: only "N/A" versus a price
  string matters).
* Every outbound HTTP call (`requests.get` / `httpx.get` followed by
  `raise_for_status()` and `.json()`) is an oracle supplied by the
  environment `Env`, returning either the parsed JSON document or the
  Python exception the call raised (`PyErr`): network/timeout errors,
  non-2xx statuses and JSON decoding failures are all `Except.error`.
* `os.getenv` is the oracle `Env.environ`; Python string truthiness
  (`if not api_key`) makes the empty string equivalent to an absent key.
* `time.sleep` in the yfinance path suspends and the clock is then read
  again; the second reading is the oracle `Env.yfNowAfterWait` (the real
  sleep guarantees it is at least `marketOpen + delay`, which theorems
  take as a hypothesis where needed).
-/

/-- Python exception kinds that the embedded upstream calls and parsing
steps can raise.  The exact message text of an exception is abstracted
to a fixed rendering per kind (`pyErrMsg`). -/
inductive PyErr where
  | requestError
  | httpStatusError
  | jsonDecodeError
  | typeError
  | keyError
  | attributeError
  deriving DecidableEq

/-- Fixed rendering of an exception, used where the route handler
interpolates `str(e)` into its HTTP 500 detail. -/
def pyErrMsg : PyErr → String
  | .requestError => "request error"
  | .httpStatusError => "http status error"
  | .jsonDecodeError => "json decode error"
  | .typeError => "type error"
  | .keyError => "key error"
  | .attributeError => "attribute error"

/-- Parsed JSON documents, as produced by `.json()` on a response. -/
inductive JVal where
  | jnull
  | jbool (b : Bool)
  | jnum (q : ℚ)
  | jstr (s : String)
  | jarr (xs : List JVal)
  | jobj (fields : List (String × JVal))

/-- Dictionary lookup on a parsed JSON object.  Python's `json` module
keeps the last binding when a key is repeated, so the last match wins. -/
def jLookup (fs : List (String × JVal)) (k : String) : Option JVal :=
  ((fs.filter (fun kv => kv.1 == k)).getLast?).map (fun kv => kv.2)

/-- Python truthiness of a JSON value (`if not data:`). -/
def pyFalsy : JVal → Bool
  | .jnull => true
  | .jbool b => !b
  | .jnum q => q == 0
  | .jstr s => s == ""
  | .jarr xs => xs.isEmpty
  | .jobj fs => fs.isEmpty

/-- Whether the character list `needle` occurs as a prefix of `hay`. -/
def startsChars : List Char → List Char → Bool
  | [], _ => true
  | _ :: _, [] => false
  | a :: as, b :: bs => a == b && startsChars as bs

/-- Whether `needle` occurs contiguously inside `hay`. -/
def containsChars (needle : List Char) : List Char → Bool
  | [] => needle.isEmpty
  | c :: t => startsChars needle (c :: t) || containsChars needle t

/-- Python `needle in hay` for two strings (substring containment).
The keys looked up by this repository are all non-empty. -/
def strContains (hay needle : String) : Bool :=
  containsChars needle.toList hay.toList

/-- ASCII lower-casing of one character; ticker symbols in this
repository are ASCII, for which Python `str.lower` agrees. -/
def asciiLower (c : Char) : Char :=
  if 65 ≤ c.toNat && c.toNat ≤ 90 then Char.ofNat (c.toNat + 32) else c

/-- Python `s.lower()` on an ASCII string. -/
def pyLower (s : String) : String :=
  String.mk (s.data.map asciiLower)

/-- Python membership test `k in v` on a parsed JSON value: key lookup on
a dict, element equality on a list, substring test on a string, and a
`TypeError` on null/bool/number. -/
def pyIn (k : String) : JVal → Except PyErr Bool
  | .jobj fs => .ok (fs.any (fun kv => kv.1 == k))
  | .jarr xs => .ok (xs.any (fun v => match v with | .jstr s => s == k | _ => false))
  | .jstr s => .ok (strContains s k)
  | _ => .error .typeError

/-- Python subscription `v[k]` with a string key: lookup on a dict
(`KeyError` when absent), `TypeError` on every other shape. -/
def pyGetItemStr : JVal → String → Except PyErr JVal
  | .jobj fs, k =>
      match jLookup fs k with
      | some v => .ok v
      | none => .error .keyError
  | _, _ => .error .typeError

/-- Python `v.get(k, dflt)`: defaulted lookup on a dict, and an
`AttributeError` when `v` is not a dict. -/
def pyDictGet (v : JVal) (k : String) (dflt : JVal) : Except PyErr JVal :=
  match v with
  | .jobj fs => .ok ((jLookup fs k).getD dflt)
  | _ => .error .attributeError

/-- Python `latest_price in [None, "N/A"]`: equality with `None` or with
the string `"N/A"` (no other JSON value compares equal to either). -/
def isNullOrNA : JVal → Bool
  | .jnull => true
  | .jstr s => s == "N/A"
  | _ => false

/-- Value of a decimal digit list, most significant first. -/
def digitsVal : List Char → Nat
  | [] => 0
  | c :: t => (c.toNat - 48) * 10 ^ t.length + digitsVal t

/-- Python `float(s)` on a plain decimal string: optional sign, integer
part, optional fractional part, at least one digit overall.  Scientific
notation, special literals and surrounding whitespace are outside the
inputs this repository's upstream payloads use and are not modelled. -/
def parseDecimal? (s : String) : Option ℚ :=
  let step : List Char → Option ℚ := fun cs =>
    let ip := cs.takeWhile Char.isDigit
    let rest := cs.dropWhile Char.isDigit
    match rest with
    | [] => if ip.isEmpty then none else some ((digitsVal ip : ℚ))
    | '.' :: fp =>
        if fp.all Char.isDigit && !(ip.isEmpty && fp.isEmpty) then
          some ((digitsVal ip : ℚ) + (digitsVal fp : ℚ) / (10 : ℚ) ^ fp.length)
        else none
    | _ => none
  match s.toList with
  | '-' :: t => (step t).map (fun q => -q)
  | '+' :: t => step t
  | t => step t

/-- Python `float(v)` on a parsed JSON value: numbers pass through,
strings are parsed, booleans become 0/1, everything else raises
(`TypeError`/`ValueError`, both caught by the callers here). -/
def pyFloat? : JVal → Option ℚ
  | .jnum q => some q
  | .jstr s => parseDecimal? s
  | .jbool b => some (if b then 1 else 0)
  | _ => none

/-- Python `str(price)`; the decimal rendering itself is abstracted to
Lean's rational rendering, which no proved property inspects. -/
def pyStr (q : ℚ) : String := toString q

/-- Timestamp value carried in a provider result tuple: the Tiingo IEX
path passes the response's `timestamp` field through untouched, while
the yfinance path renders the selected instant with `strftime`
(represented by the instant itself, in minutes). -/
inductive PyTs where
  | tiingoRaw (v : JVal)
  | minutes (t : Int)

/-- Environment of one resolution call: the process environment and the
behaviour of each upstream service (as a function of the requested
symbol), plus the two clock readings the yfinance path can make. -/
structure Env where
  environ : String → Option String
  avCall : String → Except PyErr JVal
  tiingoCall : String → Except PyErr JVal
  yfCall : String → Except PyErr (List (Int × ℚ))
  yfNow : Int
  yfNowAfterWait : Int

/-- Python `api_key = os.getenv(name)` followed by `if not api_key`:
an absent or empty variable is falsy, hence treated as missing. -/
def truthyKey (o : Option String) : Option String :=
  match o with
  | some s => if s == "" then none else some s
  | none => none

/-- Embeds `now_eastern.replace(hour=9, minute=30, second=0,
microsecond=0)` from `stock_quote_tiingo.py` line 133: today's 09:30,
with days of 1440 minutes and floor division for the day number. -/
def marketOpen (now : Int) : Int := now.fdiv 1440 * 1440 + 570

/-- Embeds `available_times.max()`: the largest timestamp of a sample
list (0 for the empty list, which the call sites exclude). -/
def maxTs (l : List (Int × ℚ)) : Int := ((l.map Prod.fst).maximum).unbot' 0

/-- Embeds `get_approximate_delayed_price_yfinance` from
`src/api/stock_quote_tiingo.py` lines 109-178.  The whole body runs
under `try/except Exception`, so a failing fetch yields `(none, none)`.
Step order follows the source: compute market open and the target time,
wait (re-reading the clock) when fewer than `delay` minutes have passed
since open, fetch the 1-minute series, and select the latest sample at
or before the target.  `data.Close[closest_timestamp]` is a label
lookup over the whole frame: when the label is duplicated it yields a
Series, whose `float()` raises and is caught, giving `(none, none)`. -/
def get_approximate_delayed_price_yfinance (env : Env) (symbol : String)
    (delayMinutes : Int) : Option ℚ × Option Int :=
  let now0 := env.yfNow
  let mo := marketOpen now0
  let nowE := if now0 < mo + delayMinutes then env.yfNowAfterWait else now0
  let target := nowE - delayMinutes
  match env.yfCall symbol with
  | .error _ => (none, none)
  | .ok series =>
    if series.isEmpty then (none, none)
    else
      let avail := series.filter (fun s => s.1 ≤ target)
      if avail.isEmpty then (none, none)
      else
        let m := maxTs avail
        match (series.filter (fun s => s.1 == m)).map Prod.snd with
        | [p] => (some p, some m)
        | _ => (none, none)

/-- Embeds `get_delayed_price_tiingo_intraday` from
`src/api/stock_quote_tiingo.py` lines 43-105.  Every exception of the
body (request errors, `KeyError`, `ValueError`, `TypeError`,
`AttributeError`, anything else) is caught and mapped to
`(none, none)`.  `apiKey` only feeds the request URL and
`delayMinutes` is unused, exactly as in the source. -/
def get_delayed_price_tiingo_intraday (env : Env) (symbol : String)
    (apiKey : String) (delayMinutes : Int) : Option ℚ × Option JVal :=
  let _ := apiKey
  let _ := delayMinutes
  match env.tiingoCall symbol with
  | .error _ => (none, none)
  | .ok data =>
    if pyFalsy data then (none, none)
    else
      match data with
      | .jarr [] => (none, none)
      | .jarr (priceData :: _) =>
        match pyIn "ticker" priceData with
        | .error _ => (none, none)
        | .ok false => (none, none)
        | .ok true =>
          match pyGetItemStr priceData "ticker" with
          | .error _ => (none, none)
          | .ok tv =>
            match tv with
            | .jstr t =>
              if pyLower t == pyLower symbol then
                match pyIn "last" priceData with
                | .error _ => (none, none)
                | .ok false => (none, none)
                | .ok true =>
                  match pyGetItemStr priceData "last" with
                  | .error _ => (none, none)
                  | .ok lv =>
                    match pyFloat? lv with
                    | none => (none, none)
                    | some price =>
                      match pyGetItemStr priceData "timestamp" with
                      | .error _ => (none, none)
                      | .ok ts => (some price, some ts)
              else (none, none)
            | _ => (none, none)
      | _ => (none, none)

/-- Packaging of a yfinance attempt inside the Tiingo-then-yfinance
chain (`stock_quote_tiingo.py` lines 33-39): a price yields the
`"yfinance"`-tagged triple, otherwise `(None, None, None)`. -/
def yfinanceBranch (env : Env) (symbol : String) (delayMinutes : Int) :
    Option ℚ × Option String × Option PyTs :=
  match get_approximate_delayed_price_yfinance env symbol delayMinutes with
  | (some p, ts) => (some p, some "yfinance", ts.map PyTs.minutes)
  | (none, _) => (none, none, none)

/-- Embeds `get_intraday_price_tiingo_or_yfinance` from
`src/api/stock_quote_tiingo.py` lines 10-39: Tiingo IEX first, then
yfinance. -/
def get_intraday_price_tiingo_or_yfinance (env : Env) (symbol : String)
    (apiKey : String) (delayMinutes : Int) :
    Option ℚ × Option String × Option PyTs :=
  match get_delayed_price_tiingo_intraday env symbol apiKey delayMinutes with
  | (some p, ts) => (some p, some "Tiingo", ts.map PyTs.tiingoRaw)
  | (none, _) => yfinanceBranch env symbol delayMinutes

/-- Embeds `get_intraday_price_tiingo_or_yfinance_async` from
`src/api/stock_quote.py` lines 81-122: with no (truthy) Tiingo key the
yfinance path runs alone with the local constant `delay_minutes = 15`
(line 99) and the source tag is `"yfinance"` even on failure (line
109); otherwise the Tiingo-then-yfinance chain runs with the local
constant `delay_minutes = 15` (line 112). -/
def get_intraday_price_tiingo_or_yfinance_async (env : Env) (ticker : String) :
    Option ℚ × Option String × Option PyTs :=
  match truthyKey (env.environ "TIINGO_API_KEY") with
  | none =>
      let r := get_approximate_delayed_price_yfinance env ticker 15
      (r.1, some "yfinance", r.2.map PyTs.minutes)
  | some apiKey => get_intraday_price_tiingo_or_yfinance env ticker apiKey 15

/-- HTTP error raised by the route (`HTTPException(status, detail)`). -/
structure HttpError where
  status : Nat
  detail : String
  deriving DecidableEq

/-- Caller-visible response body of the route:
`{"ticker": ticker, "latest_price": latest_price}`. -/
structure StockQuoteResponse where
  ticker : String
  latest_price : JVal

/-- The fallback block that `get_stock_price` runs twice
(`src/api/stock_quote.py` lines 146-152 and 157-163): invoke the
Tiingo/yfinance chain and package `str(price)` or the `"N/A"`
sentinel. -/
def fallbackAndPack (env : Env) (ticker : String) :
    Except HttpError StockQuoteResponse :=
  match get_intraday_price_tiingo_or_yfinance_async env ticker with
  | (some p, _, _) => .ok ⟨ticker, .jstr (pyStr p)⟩
  | (none, _, _) => .ok ⟨ticker, .jstr "N/A"⟩

/-- Embeds the route handler `get_stock_price` from
`src/api/stock_quote.py` lines 130-169.  A missing/empty
`ALPHA_VANTAGE_API_KEY` raises `HTTPException(500, "API key not
found")`, re-raised as-is by the `except HTTPException` arm.  Any
exception of the Alpha Vantage call (network error, non-2xx raised by
`raise_for_status`, JSON decode failure) or of the subsequent dict
operations reaches the generic `except Exception` arm and becomes
`HTTPException(500, "Internal server error: ...")` — it does not fall
back.  Fallback happens only on a successfully parsed body without a
"Global Quote" key or with a null/"N/A" "05. price" field. -/
def get_stock_price (env : Env) (ticker : String) :
    Except HttpError StockQuoteResponse :=
  match truthyKey (env.environ "ALPHA_VANTAGE_API_KEY") with
  | none => .error ⟨500, "API key not found"⟩
  | some _ =>
    match env.avCall ticker with
    | .error e => .error ⟨500, "Internal server error: " ++ pyErrMsg e⟩
    | .ok data =>
      match pyIn "Global Quote" data with
      | .error e => .error ⟨500, "Internal server error: " ++ pyErrMsg e⟩
      | .ok false => fallbackAndPack env ticker
      | .ok true =>
        match pyGetItemStr data "Global Quote" with
        | .error e => .error ⟨500, "Internal server error: " ++ pyErrMsg e⟩
        | .ok gq =>
          match pyDictGet gq "05. price" (.jstr "N/A") with
          | .error e => .error ⟨500, "Internal server error: " ++ pyErrMsg e⟩
          | .ok latest =>
            if isNullOrNA latest then fallbackAndPack env ticker
            else .ok ⟨ticker, latest⟩

/-- The wall-clock reading in effect when the yfinance path performs its
sample selection: the second clock reading when the market-open wait
branch was taken, the first otherwise. -/
def resolutionNow (env : Env) (delayMinutes : Int) : Int :=
  if env.yfNow < marketOpen env.yfNow + delayMinutes then env.yfNowAfterWait
  else env.yfNow

/-! ### Helper lemmas about the embedded operations -/

/-- A successful `jLookup` means the key occurs in the object. -/
theorem jLookup_any (fs : List (String × JVal)) (k : String) (v : JVal)
    (h : jLookup fs k = some v) :
    fs.any (fun kv => kv.1 == k) = true := by
  unfold jLookup at h
  cases hf : (fs.filter (fun kv => kv.1 == k)).getLast? with
  | none => rw [hf] at h; simp at h
  | some kv =>
    have hmemLast : kv ∈ (fs.filter (fun kv => kv.1 == k)).getLast? := hf
    obtain ⟨hne, heq⟩ := List.mem_getLast?_eq_getLast hmemLast
    have hmem : kv ∈ fs.filter (fun kv => kv.1 == k) := by
      rw [heq]; exact List.getLast_mem hne
    obtain ⟨hin, hkey⟩ := List.mem_filter.mp hmem
    exact List.any_eq_true.mpr ⟨kv, hin, hkey⟩

/-- The largest timestamp of a non-empty sample list is attained. -/
theorem maxTs_mem (l : List (Int × ℚ)) (h : l ≠ []) : ∃ s ∈ l, s.1 = maxTs l := by
  have h2 : (l.map Prod.fst) ≠ [] := by
    intro hc
    exact h (List.map_eq_nil_iff.mp hc)
  have hb := List.maximum_ne_bot_of_ne_nil h2
  obtain ⟨m, hm⟩ := Option.ne_none_iff_exists'.mp hb
  have hmem := List.maximum_mem hm
  obtain ⟨s, hs, hfst⟩ := List.mem_map.mp hmem
  refine ⟨s, hs, ?_⟩
  rw [maxTs, hm]
  simpa using hfst

/-- Every timestamp of the list is bounded by `maxTs`. -/
theorem le_maxTs (l : List (Int × ℚ)) (s : Int × ℚ) (hs : s ∈ l) : s.1 ≤ maxTs l := by
  have h2 : (l.map Prod.fst) ≠ [] := by
    intro hc
    rw [List.map_eq_nil_iff] at hc
    subst hc
    exact (List.not_mem_nil s) hs
  have hb := List.maximum_ne_bot_of_ne_nil h2
  obtain ⟨m, hm⟩ := Option.ne_none_iff_exists'.mp hb
  have hle := List.le_maximum_of_mem (List.mem_map_of_mem Prod.fst hs) hm
  rw [maxTs, hm]
  simpa using hle

/-- Under strictly increasing timestamps, the label lookup
`data.Close[ts]` of a member's timestamp returns exactly its close. -/
theorem filterTs_single (l : List (Int × ℚ))
    (hp : (l.map Prod.fst).Pairwise (· < ·))
    (s : Int × ℚ) (hmem : s ∈ l) :
    (l.filter (fun x => x.1 == s.1)).map Prod.snd = [s.2] := by
  induction l with
  | nil => cases hmem
  | cons a t ih =>
    rw [List.map_cons, List.pairwise_cons] at hp
    rcases List.mem_cons.mp hmem with rfl | hmem'
    · have hnone : t.filter (fun x => x.1 == s.1) = [] := by
        rw [List.filter_eq_nil_iff]
        intro x hx
        have hlt := hp.1 x.1 (List.mem_map_of_mem Prod.fst hx)
        simp only [beq_iff_eq]
        omega
      simp [List.filter_cons, hnone]
    · have hlt := hp.1 s.1 (List.mem_map_of_mem Prod.fst hmem')
      have hne : (a.1 == s.1) = false := by
        simp only [beq_eq_false_iff_ne, ne_eq]
        omega
      simp only [List.filter_cons, hne, Bool.false_eq_true, if_false]
      exact ih hp.2 hmem'

/-- Any exception of the Tiingo IEX request is absorbed. -/
theorem tiingo_error_none (env : Env) (sym key : String) (d : Int) (e : PyErr)
    (h : env.tiingoCall sym = .error e) :
    get_delayed_price_tiingo_intraday env sym key d = (none, none) := by
  simp [get_delayed_price_tiingo_intraday, h]

/-- A first snapshot without a "ticker" field is rejected. -/
theorem tiingo_missing_ticker_none (env : Env) (sym key : String) (d : Int)
    (fs : List (String × JVal)) (rest : List JVal)
    (hcall : env.tiingoCall sym = .ok (.jarr (.jobj fs :: rest)))
    (hno : fs.any (fun kv => kv.1 == "ticker") = false) :
    get_delayed_price_tiingo_intraday env sym key d = (none, none) := by
  simp [get_delayed_price_tiingo_intraday, hcall, pyFalsy, pyIn, hno]

/-- A first snapshot whose ticker differs case-insensitively from the
requested symbol is rejected. -/
theorem tiingo_mismatch_none (env : Env) (sym key : String) (d : Int)
    (fs : List (String × JVal)) (rest : List JVal) (t : String)
    (hcall : env.tiingoCall sym = .ok (.jarr (.jobj fs :: rest)))
    (ht : jLookup fs "ticker" = some (.jstr t))
    (hne : pyLower t ≠ pyLower sym) :
    get_delayed_price_tiingo_intraday env sym key d = (none, none) := by
  have hany := jLookup_any fs "ticker" _ ht
  have hbeq : (pyLower t == pyLower sym) = false := beq_eq_false_iff_ne.mpr hne
  simp [get_delayed_price_tiingo_intraday, hcall, pyFalsy, pyIn, hany,
    pyGetItemStr, ht, hbeq]

/-- When the Tiingo attempt yields no price, the chain runs yfinance. -/
theorem chain_of_tiingo_none (env : Env) (sym key : String) (d : Int)
    (h : (get_delayed_price_tiingo_intraday env sym key d).1 = none) :
    get_intraday_price_tiingo_or_yfinance env sym key d = yfinanceBranch env sym d := by
  rcases hres : get_delayed_price_tiingo_intraday env sym key d with ⟨p, ts⟩
  rw [hres] at h
  simp only at h
  subst h
  simp [get_intraday_price_tiingo_or_yfinance, hres]

/-- Any exception of the yfinance fetch is absorbed. -/
theorem yf_error_none (env : Env) (sym : String) (d : Int) (e : PyErr)
    (h : env.yfCall sym = .error e) :
    get_approximate_delayed_price_yfinance env sym d = (none, none) := by
  simp [get_approximate_delayed_price_yfinance, h]

/-- The yfinance path consults the requested symbol only as the key of
its fetch: identical fetched responses give identical results. -/
theorem yf_symbol_blind (env : Env) (s₁ s₂ : String) (d : Int)
    (h : env.yfCall s₁ = env.yfCall s₂) :
    get_approximate_delayed_price_yfinance env s₁ d =
      get_approximate_delayed_price_yfinance env s₂ d := by
  simp only [get_approximate_delayed_price_yfinance, h]

/-- Inversion of a successful yfinance approximation: the fetch
succeeded and the returned timestamp is the largest one at or before
the target time, with the matching close price. -/
theorem yf_success_inv (env : Env) (sym : String) (d : Int) (p : ℚ) (t : Int)
    (h : get_approximate_delayed_price_yfinance env sym d = (some p, some t)) :
    ∃ series, env.yfCall sym = .ok series ∧
      series.filter (fun x => x.1 ≤ resolutionNow env d - d) ≠ [] ∧
      t = maxTs (series.filter (fun x => x.1 ≤ resolutionNow env d - d)) ∧
      (series.filter (fun x => x.1 == t)).map Prod.snd = [p] := by
  cases hc : env.yfCall sym with
  | error e => simp [get_approximate_delayed_price_yfinance, hc] at h
  | ok series =>
    simp only [get_approximate_delayed_price_yfinance, hc] at h
    refine ⟨series, rfl, ?_⟩
    have htarget :
        (if env.yfNow < marketOpen env.yfNow + d then env.yfNowAfterWait else env.yfNow) - d
          = resolutionNow env d - d := by
      simp [resolutionNow]
    rw [htarget] at h
    cases he : series.isEmpty with
    | true => rw [he] at h; simp at h
    | false =>
      rw [he] at h
      simp only [Bool.false_eq_true, if_false] at h
      cases ha : (series.filter (fun x => x.1 ≤ resolutionNow env d - d)).isEmpty with
      | true => rw [ha] at h; simp at h
      | false =>
        rw [ha] at h
        simp only [Bool.false_eq_true, if_false] at h
        have hne : series.filter (fun x => x.1 ≤ resolutionNow env d - d) ≠ [] := by
          intro hnil
          rw [hnil] at ha
          simp at ha
        refine ⟨hne, ?_⟩
        split at h
        · rename_i p' heq
          obtain ⟨h1, h2⟩ := Prod.mk.injEq .. ▸ h
          cases h1
          cases h2
          exact ⟨rfl, heq⟩
        · simp at h

/-- Packaging of the fallback chain when it produced no price. -/
theorem fallback_none (env : Env) (ticker : String)
    (h : (get_intraday_price_tiingo_or_yfinance_async env ticker).1 = none) :
    fallbackAndPack env ticker = .ok ⟨ticker, .jstr "N/A"⟩ := by
  rcases hres : get_intraday_price_tiingo_or_yfinance_async env ticker with ⟨p, rest⟩
  rw [hres] at h
  simp only at h
  subst h
  simp [fallbackAndPack, hres]

/-- Packaging of the fallback chain when it produced a price. -/
theorem fallback_some (env : Env) (ticker : String) (p : ℚ)
    (src : Option String) (ts : Option PyTs)
    (h : get_intraday_price_tiingo_or_yfinance_async env ticker = (some p, src, ts)) :
    fallbackAndPack env ticker = .ok ⟨ticker, .jstr (pyStr p)⟩ := by
  simp [fallbackAndPack, h]

/-- With the primary credential present, a parsed primary body whose
"Global Quote" object carries a null or "N/A" price makes the route run
the fallback block. -/
theorem gsp_na_fallback (env : Env) (ticker k : String)
    (fs gfs : List (String × JVal)) (v : JVal)
    (hkey : truthyKey (env.environ "ALPHA_VANTAGE_API_KEY") = some k)
    (hav : env.avCall ticker = .ok (.jobj fs))
    (hGQ : jLookup fs "Global Quote" = some (.jobj gfs))
    (hP : jLookup gfs "05. price" = some v)
    (hNA : isNullOrNA v = true) :
    get_stock_price env ticker = fallbackAndPack env ticker := by
  have hany := jLookup_any fs "Global Quote" _ hGQ
  simp [get_stock_price, hkey, hav, pyIn, hany, pyGetItemStr, hGQ, pyDictGet, hP, hNA]

/-- When the chain's Tiingo arm yields no price, `fallbackAndPack` is
decided by the yfinance arm alone. -/
theorem async_first_none (env : Env) (ticker : String)
    (hTii : ∀ key, (get_delayed_price_tiingo_intraday env ticker key 15).1 = none)
    (hyf : get_approximate_delayed_price_yfinance env ticker 15 = (none, none)) :
    (get_intraday_price_tiingo_or_yfinance_async env ticker).1 = none := by
  cases hk : truthyKey (env.environ "TIINGO_API_KEY") with
  | none =>
    simp only [get_intraday_price_tiingo_or_yfinance_async, hk]
    rw [hyf]
  | some key =>
    simp only [get_intraday_price_tiingo_or_yfinance_async, hk]
    rw [chain_of_tiingo_none env ticker key 15 (hTii key)]
    simp [yfinanceBranch, hyf]

/-! ### Claim theorems -/

/-- C1: if the primary (Alpha Vantage) call parses to an object whose
"Global Quote" object carries a non-null "05. price" string `p` other
than "N/A", then `get_stock_price` answers `{ticker, latest_price: p}`
from the primary source alone — the same answer results in every
environment agreeing with this one on the primary credential and the
primary call, so the secondary and tertiary providers are never
consulted. -/
theorem C1_primary_valid_price_short_circuits
    (env : Env) (ticker k p : String) (fs gfs : List (String × JVal))
    (hkey : truthyKey (env.environ "ALPHA_VANTAGE_API_KEY") = some k)
    (hav : env.avCall ticker = .ok (.jobj fs))
    (hGQ : jLookup fs "Global Quote" = some (.jobj gfs))
    (hP : jLookup gfs "05. price" = some (.jstr p))
    (hne : p ≠ "N/A") :
    get_stock_price env ticker = .ok ⟨ticker, .jstr p⟩ ∧
    ∀ env' : Env,
      truthyKey (env'.environ "ALPHA_VANTAGE_API_KEY") = some k →
      env'.avCall ticker = .ok (.jobj fs) →
      get_stock_price env' ticker = .ok ⟨ticker, .jstr p⟩ := by
  have main : ∀ env' : Env,
      truthyKey (env'.environ "ALPHA_VANTAGE_API_KEY") = some k →
      env'.avCall ticker = .ok (.jobj fs) →
      get_stock_price env' ticker = .ok ⟨ticker, .jstr p⟩ := by
    intro env' hkey' hav'
    have hany := jLookup_any fs "Global Quote" _ hGQ
    have hbeq : (p == "N/A") = false := beq_eq_false_iff_ne.mpr hne
    simp [get_stock_price, hkey', hav', pyIn, hany, pyGetItemStr, hGQ,
      pyDictGet, hP, isNullOrNA, hbeq]
  exact ⟨main env hkey hav, main⟩

/-- Concrete environment for the C1 witness: primary credential set and
the primary provider answering a valid quote for any symbol. -/
def envC1 : Env where
  environ := fun k => if k == "ALPHA_VANTAGE_API_KEY" then some "avkey" else none
  avCall := fun _ => .ok (.jobj [("Global Quote", .jobj [("05. price", .jstr "312.50")])])
  tiingoCall := fun _ => .error .requestError
  yfCall := fun _ => .error .requestError
  yfNow := 600
  yfNowAfterWait := 600

/-- C1 witness: the spec's MSFT/312.50 scenario. -/
theorem C1_witness :
    get_stock_price envC1 "MSFT" = .ok ⟨"MSFT", .jstr "312.50"⟩ :=
  (C1_primary_valid_price_short_circuits envC1 "MSFT" "avkey" "312.50"
    [("Global Quote", .jobj [("05. price", .jstr "312.50")])]
    [("05. price", .jstr "312.50")] rfl rfl rfl rfl (by decide)).1

/-- C2 (amended): transient upstream failures are absorbed and mapped
to Unavailable at the secondary (Tiingo IEX) and tertiary (yfinance)
provider boundaries, with the chain then falling through to the next
provider; the primary is different: with the credential present, an
exception of the Alpha Vantage call (network failure, non-2xx status
raised by `raise_for_status`, malformed body) propagates to the
route's generic handler and surfaces as an HTTP 500 error, without
fallback. -/
theorem C2_transient_failure_boundaries :
    (∀ (env : Env) (sym key : String) (d : Int) (e : PyErr),
        env.tiingoCall sym = .error e →
        get_delayed_price_tiingo_intraday env sym key d = (none, none) ∧
        get_intraday_price_tiingo_or_yfinance env sym key d =
          yfinanceBranch env sym d) ∧
    (∀ (env : Env) (sym : String) (d : Int) (e : PyErr),
        env.yfCall sym = .error e →
        get_approximate_delayed_price_yfinance env sym d = (none, none)) ∧
    (∀ (env : Env) (ticker k : String) (e : PyErr),
        truthyKey (env.environ "ALPHA_VANTAGE_API_KEY") = some k →
        env.avCall ticker = .error e →
        get_stock_price env ticker =
          .error ⟨500, "Internal server error: " ++ pyErrMsg e⟩) := by
  refine ⟨fun env sym key d e h => ⟨tiingo_error_none env sym key d e h, ?_⟩,
    fun env sym d e h => yf_error_none env sym d e h,
    fun env ticker k e hkey hav => ?_⟩
  · exact chain_of_tiingo_none env sym key d
      (by rw [tiingo_error_none env sym key d e h])
  · simp [get_stock_price, hkey, hav]

/-- Concrete environment for the C2 counterexample: primary credential
present, the primary call failing with a non-2xx status, and a fully
valid secondary (Tiingo IEX) quote standing ready. -/
def envC2 : Env where
  environ := fun k =>
    if k == "ALPHA_VANTAGE_API_KEY" then some "avkey"
    else if k == "TIINGO_API_KEY" then some "tk" else none
  avCall := fun _ => .error .httpStatusError
  tiingoCall := fun _ => .ok (.jarr [.jobj
    [("ticker", .jstr "aapl"), ("last", .jnum 101),
     ("timestamp", .jstr "2026-10-10T10:00:00-04:00")]])
  yfCall := fun _ => .ok [(584, 11)]
  yfNow := 600
  yfNowAfterWait := 600

/-- C2 counterexample: a transient primary failure (non-2xx HTTP
status) is surfaced to the caller as an HTTP 500 error instead of
being mapped to Unavailable — even though the fallback chain, had it
been consulted, held a valid Tiingo price. -/
theorem C2_counterexample :
    get_stock_price envC2 "AAPL" =
      .error ⟨500, "Internal server error: http status error"⟩ ∧
    get_intraday_price_tiingo_or_yfinance_async envC2 "AAPL" =
      (some 101, some "Tiingo",
        some (.tiingoRaw (.jstr "2026-10-10T10:00:00-04:00"))) :=
  ⟨rfl, rfl⟩

/-- Concrete environment for the C2 witness: every upstream call
failing transiently, with both credentials present. -/
def envC2W : Env where
  environ := fun k =>
    if k == "ALPHA_VANTAGE_API_KEY" then some "avkey"
    else if k == "TIINGO_API_KEY" then some "tk" else none
  avCall := fun _ => .error .requestError
  tiingoCall := fun _ => .error .requestError
  yfCall := fun _ => .error .requestError
  yfNow := 600
  yfNowAfterWait := 600

/-- C2 witness: the amended claim at a concrete environment. -/
theorem C2_witness :
    get_delayed_price_tiingo_intraday envC2W "AAPL" "tk" 15 = (none, none) ∧
    get_approximate_delayed_price_yfinance envC2W "AAPL" 15 = (none, none) ∧
    get_stock_price envC2W "AAPL" =
      .error ⟨500, "Internal server error: request error"⟩ :=
  ⟨(C2_transient_failure_boundaries.1 envC2W "AAPL" "tk" 15 .requestError rfl).1,
   C2_transient_failure_boundaries.2.1 envC2W "AAPL" 15 .requestError rfl,
   C2_transient_failure_boundaries.2.2 envC2W "AAPL" "avkey" .requestError rfl rfl⟩

/-- C3: outside the market-open wait window, the Delay Approximator
returns the close of the latest fetched sample whose timestamp is at
or before `now - delayMinutes`, and Unavailable when no sample lies at
or before that target (in particular when the series is empty). -/
theorem C3_selects_latest_sample_before_target
    (env : Env) (sym : String) (delay : Int) (series : List (Int × ℚ))
    (hCall : env.yfCall sym = .ok series)
    (hNoWait : marketOpen env.yfNow + delay ≤ env.yfNow)
    (hSorted : (series.map Prod.fst).Pairwise (· < ·)) :
    (series.filter (fun x => x.1 ≤ env.yfNow - delay) = [] →
        get_approximate_delayed_price_yfinance env sym delay = (none, none)) ∧
    (∀ best ∈ series, best.1 ≤ env.yfNow - delay →
        (∀ x ∈ series, x.1 ≤ env.yfNow - delay → x.1 ≤ best.1) →
        get_approximate_delayed_price_yfinance env sym delay =
          (some best.2, some best.1)) := by
  have hif : (if env.yfNow < marketOpen env.yfNow + delay
      then env.yfNowAfterWait else env.yfNow) = env.yfNow :=
    if_neg (not_lt.mpr hNoWait)
  constructor
  · intro hempty
    simp [get_approximate_delayed_price_yfinance, hCall, hif, hempty]
  · intro best hmem hle hmax
    have hne_ser : series ≠ [] := List.ne_nil_of_mem hmem
    have hmemA : best ∈ series.filter (fun x => x.1 ≤ env.yfNow - delay) :=
      List.mem_filter.mpr ⟨hmem, by simpa using hle⟩
    have hneA : series.filter (fun x => x.1 ≤ env.yfNow - delay) ≠ [] :=
      List.ne_nil_of_mem hmemA
    have hmax_eq : maxTs (series.filter (fun x => x.1 ≤ env.yfNow - delay))
        = best.1 := by
      apply le_antisymm
      · obtain ⟨s, hsA, hsfst⟩ := maxTs_mem _ hneA
        obtain ⟨hsser, hsle⟩ := List.mem_filter.mp hsA
        have h1 := hmax s hsser (by simpa using hsle)
        omega
      · exact le_maxTs _ best hmemA
    have hsingle := filterTs_single series hSorted best hmem
    have hseF : series.isEmpty = false := by
      cases hh : series.isEmpty
      · rfl
      · exact absurd (List.isEmpty_iff.mp hh) hne_ser
    have hAF : (series.filter (fun x => x.1 ≤ env.yfNow - delay)).isEmpty = false := by
      cases hh : (series.filter (fun x => x.1 ≤ env.yfNow - delay)).isEmpty
      · rfl
      · exact absurd (List.isEmpty_iff.mp hh) hneA
    simp [get_approximate_delayed_price_yfinance, hCall, hif, hseF, hAF,
      hmax_eq, hsingle]

/-- Concrete environment for the C3 witness: 10:00 on day zero
(minute 600, market open 09:30 = minute 570), samples at 09:44
(minute 584) and 09:46 (minute 586). -/
def envC3 : Env where
  environ := fun _ => none
  avCall := fun _ => .error .requestError
  tiingoCall := fun _ => .error .requestError
  yfCall := fun _ => .ok [(584, 11), (586, 12)]
  yfNow := 600
  yfNowAfterWait := 600

/-- C3 witness: the spec's 09:44/09:46 scenario with a 15-minute delay
and a 09:45 target selects the 09:44 sample. -/
theorem C3_witness :
    get_approximate_delayed_price_yfinance envC3 "AAPL" 15 = (some 11, some 584) :=
  (C3_selects_latest_sample_before_target envC3 "AAPL" 15 [(584, 11), (586, 12)]
    rfl (by decide) (by decide)).2 (584, 11) (by decide) (by decide) (by decide)

/-- Concrete environment for the C4 counterexample: the yfinance fetch
serves one and the same intraday series for every requested symbol, so
the series served for a request on "AAPL" is byte-for-byte the series
belonging to "AAPI". -/
def envC4 : Env where
  environ := fun _ => none
  avCall := fun _ => .error .requestError
  tiingoCall := fun _ => .error .requestError
  yfCall := fun _ => .ok [(2020, 99)]
  yfNow := 2040
  yfNowAfterWait := 2040

/-- C4 counterexample: the tertiary (yfinance-backed) provider applies
no ticker validation at all — its history response carries no ticker
field to compare.  Requesting "AAPL" while the fetch serves exactly
the series it serves for "AAPI" still yields a price, not
Unavailable. -/
theorem C4_counterexample :
    envC4.yfCall "AAPL" = envC4.yfCall "AAPI" ∧
    get_approximate_delayed_price_yfinance envC4 "AAPL" 15 = (some 99, some 2020) :=
  ⟨rfl, rfl⟩

/-- C4 (amended): the case-insensitive ticker-mismatch rejection is
implemented in the secondary (Tiingo IEX) provider, which returns
Unavailable when the first snapshot's ticker differs from the
requested symbol; the tertiary yfinance provider performs no ticker
validation — its result depends on the requested symbol only through
the fetched series. -/
theorem C4_ticker_validation_in_secondary :
    (∀ (env : Env) (sym key : String) (d : Int) (fs : List (String × JVal))
        (rest : List JVal) (t : String),
        env.tiingoCall sym = .ok (.jarr (.jobj fs :: rest)) →
        jLookup fs "ticker" = some (.jstr t) →
        pyLower t ≠ pyLower sym →
        get_delayed_price_tiingo_intraday env sym key d = (none, none)) ∧
    (∀ (env : Env) (s₁ s₂ : String) (d : Int),
        env.yfCall s₁ = env.yfCall s₂ →
        get_approximate_delayed_price_yfinance env s₁ d =
          get_approximate_delayed_price_yfinance env s₂ d) :=
  ⟨fun env sym key d fs rest t h1 h2 h3 =>
      tiingo_mismatch_none env sym key d fs rest t h1 h2 h3,
   fun env s₁ s₂ d h => yf_symbol_blind env s₁ s₂ d h⟩

/-- Concrete environment for the C4 witness: a Tiingo IEX response
reporting ticker "AAPI". -/
def envC4W : Env where
  environ := fun _ => none
  avCall := fun _ => .error .requestError
  tiingoCall := fun _ => .ok (.jarr [.jobj
    [("ticker", .jstr "AAPI"), ("last", .jnum 7),
     ("timestamp", .jstr "2026-10-10T10:00:00-04:00")]])
  yfCall := fun _ => .ok []
  yfNow := 600
  yfNowAfterWait := 600

/-- C4 witness: requested "AAPL", secondary response reports "AAPI" —
rejected as Unavailable; and the tertiary is symbol-blind. -/
theorem C4_witness :
    get_delayed_price_tiingo_intraday envC4W "AAPL" "tk" 15 = (none, none) ∧
    get_approximate_delayed_price_yfinance envC4W "AAPL" 15 =
      get_approximate_delayed_price_yfinance envC4W "AAPI" 15 :=
  ⟨C4_ticker_validation_in_secondary.1 envC4W "AAPL" "tk" 15
      [("ticker", .jstr "AAPI"), ("last", .jnum 7),
       ("timestamp", .jstr "2026-10-10T10:00:00-04:00")] [] "AAPI"
      rfl rfl (by decide),
   C4_ticker_validation_in_secondary.2 envC4W "AAPL" "AAPI" 15 rfl⟩

/-- C5: a primary response that parses successfully but whose
"Global Quote" object carries an explicit null or "N/A" price is not
returned as a price: the route runs the fallback block, whose outcome
is the Tiingo/yfinance chain's — a chain price `p` is answered as
`str(p)` and a chain failure as the "N/A" sentinel. -/
theorem C5_primary_null_na_price_falls_back
    (env : Env) (ticker k : String) (fs gfs : List (String × JVal)) (v : JVal)
    (hkey : truthyKey (env.environ "ALPHA_VANTAGE_API_KEY") = some k)
    (hav : env.avCall ticker = .ok (.jobj fs))
    (hGQ : jLookup fs "Global Quote" = some (.jobj gfs))
    (hP : jLookup gfs "05. price" = some v)
    (hNA : isNullOrNA v = true) :
    get_stock_price env ticker = fallbackAndPack env ticker ∧
    (∀ (p : ℚ) (src : Option String) (ts : Option PyTs),
        get_intraday_price_tiingo_or_yfinance_async env ticker = (some p, src, ts) →
        get_stock_price env ticker = .ok ⟨ticker, .jstr (pyStr p)⟩) ∧
    ((get_intraday_price_tiingo_or_yfinance_async env ticker).1 = none →
        get_stock_price env ticker = .ok ⟨ticker, .jstr "N/A"⟩) := by
  have hmain := gsp_na_fallback env ticker k fs gfs v hkey hav hGQ hP hNA
  refine ⟨hmain, fun p src ts hchain => ?_, fun hchain => ?_⟩
  · rw [hmain, fallback_some env ticker p src ts hchain]
  · rw [hmain, fallback_none env ticker hchain]

/-- Concrete environment for the C5 witness: primary answers an
explicit null price, Tiingo stands ready with price 101. -/
def envC5 : Env where
  environ := fun k =>
    if k == "ALPHA_VANTAGE_API_KEY" then some "avkey"
    else if k == "TIINGO_API_KEY" then some "tk" else none
  avCall := fun _ => .ok (.jobj [("Global Quote", .jobj [("05. price", .jnull)])])
  tiingoCall := fun _ => .ok (.jarr [.jobj
    [("ticker", .jstr "msft"), ("last", .jnum 101),
     ("timestamp", .jstr "2026-10-10T10:00:00-04:00")]])
  yfCall := fun _ => .ok []
  yfNow := 600
  yfNowAfterWait := 600

/-- C5 witness: a null primary price hands the request to the chain,
which answers the Tiingo price. -/
theorem C5_witness :
    get_stock_price envC5 "MSFT" = .ok ⟨"MSFT", .jstr (pyStr 101)⟩ :=
  (C5_primary_null_na_price_falls_back envC5 "MSFT" "avkey"
    [("Global Quote", .jobj [("05. price", .jnull)])]
    [("05. price", .jnull)] .jnull rfl rfl rfl rfl rfl).2.1
    101 (some "Tiingo") (some (.tiingoRaw (.jstr "2026-10-10T10:00:00-04:00"))) rfl

/-- C6: credential asymmetry — an absent (or empty, hence falsy)
`TIINGO_API_KEY` makes the resolver skip the Tiingo provider and
continue with the yfinance path alone, while an absent
`ALPHA_VANTAGE_API_KEY` fails the whole resolution immediately with
the distinct configuration error, for every behaviour of the
remaining providers. -/
theorem C6_credential_asymmetry :
    (∀ (env : Env) (ticker : String),
        truthyKey (env.environ "TIINGO_API_KEY") = none →
        get_intraday_price_tiingo_or_yfinance_async env ticker =
          ((get_approximate_delayed_price_yfinance env ticker 15).1,
            some "yfinance",
            (get_approximate_delayed_price_yfinance env ticker 15).2.map
              PyTs.minutes)) ∧
    (∀ (env : Env) (ticker : String),
        truthyKey (env.environ "ALPHA_VANTAGE_API_KEY") = none →
        get_stock_price env ticker = .error ⟨500, "API key not found"⟩) := by
  constructor
  · intro env ticker hk
    simp [get_intraday_price_tiingo_or_yfinance_async, hk]
  · intro env ticker hk
    simp [get_stock_price, hk]

/-- Concrete environment for the C6 witness: no environment variables
set at all, and a usable yfinance series. -/
def envC6 : Env where
  environ := fun _ => none
  avCall := fun _ => .ok (.jobj [("Global Quote", .jobj [("05. price", .jstr "1")])])
  tiingoCall := fun _ => .ok (.jarr [.jobj
    [("ticker", .jstr "xyz"), ("last", .jnum 3),
     ("timestamp", .jstr "t")]])
  yfCall := fun _ => .ok [(584, 11)]
  yfNow := 600
  yfNowAfterWait := 600

/-- C6 witness: with no Tiingo key the chain is the yfinance arm; with
no Alpha Vantage key the route fails with the configuration error. -/
theorem C6_witness :
    get_intraday_price_tiingo_or_yfinance_async envC6 "XYZ" =
      ((get_approximate_delayed_price_yfinance envC6 "XYZ" 15).1,
        some "yfinance",
        (get_approximate_delayed_price_yfinance envC6 "XYZ" 15).2.map
          PyTs.minutes) ∧
    get_stock_price envC6 "XYZ" = .error ⟨500, "API key not found"⟩ :=
  ⟨C6_credential_asymmetry.1 envC6 "XYZ" rfl,
   C6_credential_asymmetry.2 envC6 "XYZ" rfl⟩

/-- C7: with the primary usable only as null/"N/A", the Tiingo arm
yielding no price, and an empty tertiary series, the route answers the
sentinel `{ticker, latest_price: "N/A"}` — an ok response, not an
error. -/
theorem C7_exhausted_yields_na_sentinel
    (env : Env) (ticker k : String) (fs gfs : List (String × JVal)) (v : JVal)
    (hkey : truthyKey (env.environ "ALPHA_VANTAGE_API_KEY") = some k)
    (hav : env.avCall ticker = .ok (.jobj fs))
    (hGQ : jLookup fs "Global Quote" = some (.jobj gfs))
    (hP : jLookup gfs "05. price" = some v)
    (hNA : isNullOrNA v = true)
    (hTii : ∀ key, (get_delayed_price_tiingo_intraday env ticker key 15).1 = none)
    (hYf : env.yfCall ticker = .ok []) :
    get_stock_price env ticker = .ok ⟨ticker, .jstr "N/A"⟩ := by
  have hyf0 : get_approximate_delayed_price_yfinance env ticker 15 = (none, none) := by
    simp [get_approximate_delayed_price_yfinance, hYf]
  rw [gsp_na_fallback env ticker k fs gfs v hkey hav hGQ hP hNA]
  exact fallback_none env ticker (async_first_none env ticker hTii hyf0)

/-- Concrete environment for the C7 witness: the spec's "XYZ" scenario —
primary returns "N/A", secondary returns an empty collection, tertiary
series is empty. -/
def envC7 : Env where
  environ := fun k =>
    if k == "ALPHA_VANTAGE_API_KEY" then some "avkey"
    else if k == "TIINGO_API_KEY" then some "tk" else none
  avCall := fun _ => .ok (.jobj [("Global Quote", .jobj [("05. price", .jstr "N/A")])])
  tiingoCall := fun _ => .ok (.jarr [])
  yfCall := fun _ => .ok []
  yfNow := 600
  yfNowAfterWait := 600

/-- C7 witness: the spec's total-unavailability scenario for "XYZ". -/
theorem C7_witness :
    get_stock_price envC7 "XYZ" = .ok ⟨"XYZ", .jstr "N/A"⟩ :=
  C7_exhausted_yields_na_sentinel envC7 "XYZ" "avkey"
    [("Global Quote", .jobj [("05. price", .jstr "N/A")])]
    [("05. price", .jstr "N/A")] (.jstr "N/A")
    rfl rfl rfl rfl rfl (fun _ => rfl) rfl

/-- C8: every quote the Delay Approximator produces carries an
observation timestamp at most `now - delayMinutes` for the wall-clock
reading `now` in effect at selection time (`resolutionNow`), hence at
least `delayMinutes` in the past and never future-dated — because only
samples with timestamp at or before the target are eligible. -/
theorem C8_delayed_observedAt_bound
    (env : Env) (sym : String) (delay : Int) (p : ℚ) (t : Int)
    (hd : 0 ≤ delay)
    (h : get_approximate_delayed_price_yfinance env sym delay = (some p, some t)) :
    t + delay ≤ resolutionNow env delay ∧ t ≤ resolutionNow env delay := by
  obtain ⟨series, hc, hne, ht, hp⟩ := yf_success_inv env sym delay p t h
  obtain ⟨s, hsA, hsfst⟩ := maxTs_mem _ hne
  obtain ⟨hsser, hsle⟩ := List.mem_filter.mp hsA
  have hsTarget : s.1 ≤ resolutionNow env delay - delay := by simpa using hsle
  have hts : t = s.1 := by rw [ht, hsfst]
  omega

/-- Concrete environment for the C8 witness. -/
def envC8 : Env where
  environ := fun _ => none
  avCall := fun _ => .error .requestError
  tiingoCall := fun _ => .error .requestError
  yfCall := fun _ => .ok [(584, 11)]
  yfNow := 600
  yfNowAfterWait := 600

/-- C8 witness: the selected sample at minute 584 is at least 15
minutes before the selection-time clock reading. -/
theorem C8_witness :
    get_approximate_delayed_price_yfinance envC8 "AAPL" 15 = (some 11, some 584) ∧
    (584 + 15 ≤ resolutionNow envC8 15 ∧ (584 : Int) ≤ resolutionNow envC8 15) :=
  ⟨rfl, C8_delayed_observedAt_bound envC8 "AAPL" 15 11 584 (by decide) rfl⟩

/-- Concrete environment for the C9 counterexample: the process
environment carries a 30-minute delay setting (under any plausible
name — the code reads none), no Tiingo key, and an intraday series
whose selection outcome distinguishes a 15-minute from a 30-minute
delay window (now = minute 2040, i.e. 10:00 of day one; samples at
09:40 and 09:50). -/
def envC9 : Env where
  environ := fun k => if k == "STOCK_QUOTE_DELAY_MINUTES" then some "30" else none
  avCall := fun _ => .error .requestError
  tiingoCall := fun _ => .error .requestError
  yfCall := fun _ => .ok [(2020, 7), (2030, 8)]
  yfNow := 2040
  yfNowAfterWait := 2040

/-- C9 counterexample: with a 30-minute delay configured in the
environment, the resolver still resolves with the hardcoded 15-minute
delay — it returns the 09:40 sample that only a 15-minute target
admits, while a 30-minute delay would have found no usable sample at
all. -/
theorem C9_counterexample :
    envC9.environ "STOCK_QUOTE_DELAY_MINUTES" = some "30" ∧
    get_intraday_price_tiingo_or_yfinance_async envC9 "AAPL" =
      (some 7, some "yfinance", some (.minutes 2020)) ∧
    get_approximate_delayed_price_yfinance envC9 "AAPL" 30 = (none, none) :=
  ⟨rfl, rfl, rfl⟩

/-- C9 (amended): the 15-minute delay window is a hardcoded local
constant at both call sites inside the resolver, not a configuration
input: the resolution depends on the process environment only through
the two API keys, and whichever branch the Tiingo key selects runs
with delay 15. -/
theorem C9_delay_window_hardcoded_fifteen :
    (∀ (e₁ e₂ : Env) (ticker : String),
        e₁.environ "ALPHA_VANTAGE_API_KEY" = e₂.environ "ALPHA_VANTAGE_API_KEY" →
        e₁.environ "TIINGO_API_KEY" = e₂.environ "TIINGO_API_KEY" →
        e₁.avCall = e₂.avCall → e₁.tiingoCall = e₂.tiingoCall →
        e₁.yfCall = e₂.yfCall → e₁.yfNow = e₂.yfNow →
        e₁.yfNowAfterWait = e₂.yfNowAfterWait →
        get_stock_price e₁ ticker = get_stock_price e₂ ticker) ∧
    (∀ (env : Env) (ticker key : String),
        truthyKey (env.environ "TIINGO_API_KEY") = some key →
        get_intraday_price_tiingo_or_yfinance_async env ticker =
          get_intraday_price_tiingo_or_yfinance env ticker key 15) ∧
    (∀ (env : Env) (ticker : String),
        truthyKey (env.environ "TIINGO_API_KEY") = none →
        get_intraday_price_tiingo_or_yfinance_async env ticker =
          ((get_approximate_delayed_price_yfinance env ticker 15).1,
            some "yfinance",
            (get_approximate_delayed_price_yfinance env ticker 15).2.map
              PyTs.minutes)) := by
  refine ⟨fun e₁ e₂ ticker h1 h2 h3 h4 h5 h6 h7 => ?_,
    fun env ticker key hk => ?_, fun env ticker hk => ?_⟩
  · simp only [get_stock_price, fallbackAndPack,
      get_intraday_price_tiingo_or_yfinance_async,
      get_intraday_price_tiingo_or_yfinance, get_delayed_price_tiingo_intraday,
      yfinanceBranch, get_approximate_delayed_price_yfinance, marketOpen,
      h1, h2, h3, h4, h5, h6, h7]
  · simp [get_intraday_price_tiingo_or_yfinance_async, hk]
  · simp [get_intraday_price_tiingo_or_yfinance_async, hk]

/-- Concrete environment for the C9 witness. -/
def envC9W : Env where
  environ := fun k => if k == "TIINGO_API_KEY" then some "tk" else none
  avCall := fun _ => .error .requestError
  tiingoCall := fun _ => .error .requestError
  yfCall := fun _ => .ok [(584, 11)]
  yfNow := 600
  yfNowAfterWait := 600

/-- C9 witness: with a Tiingo key configured, the resolver runs the
chain with the hardcoded delay of 15. -/
theorem C9_witness :
    get_intraday_price_tiingo_or_yfinance_async envC9W "AAPL" =
      get_intraday_price_tiingo_or_yfinance envC9W "AAPL" "tk" 15 :=
  C9_delay_window_hardcoded_fifteen.2.1 envC9W "AAPL" "tk" rfl

/-- C10: the secondary (Tiingo IEX) provider also rejects ticker
mismatches: a first snapshot without a "ticker" field, or with a
ticker differing case-insensitively from the requested symbol, yields
`(None, None)`; and whenever the Tiingo arm yields no price, the chain
falls back to the yfinance tertiary provider. -/
theorem C10_secondary_rejects_ticker_mismatch :
    (∀ (env : Env) (sym key : String) (d : Int) (fs : List (String × JVal))
        (rest : List JVal),
        env.tiingoCall sym = .ok (.jarr (.jobj fs :: rest)) →
        fs.any (fun kv => kv.1 == "ticker") = false →
        get_delayed_price_tiingo_intraday env sym key d = (none, none)) ∧
    (∀ (env : Env) (sym key : String) (d : Int) (fs : List (String × JVal))
        (rest : List JVal) (t : String),
        env.tiingoCall sym = .ok (.jarr (.jobj fs :: rest)) →
        jLookup fs "ticker" = some (.jstr t) →
        pyLower t ≠ pyLower sym →
        get_delayed_price_tiingo_intraday env sym key d = (none, none)) ∧
    (∀ (env : Env) (sym key : String) (d : Int),
        (get_delayed_price_tiingo_intraday env sym key d).1 = none →
        get_intraday_price_tiingo_or_yfinance env sym key d =
          yfinanceBranch env sym d) :=
  ⟨fun env sym key d fs rest h1 h2 =>
      tiingo_missing_ticker_none env sym key d fs rest h1 h2,
   fun env sym key d fs rest t h1 h2 h3 =>
      tiingo_mismatch_none env sym key d fs rest t h1 h2 h3,
   fun env sym key d h => chain_of_tiingo_none env sym key d h⟩

/-- Concrete environment for the C10 witness: the Tiingo snapshot has
no "ticker" field at all. -/
def envC10 : Env where
  environ := fun _ => none
  avCall := fun _ => .error .requestError
  tiingoCall := fun _ => .ok (.jarr [.jobj [("last", .jnum 5)]])
  yfCall := fun _ => .ok [(584, 11)]
  yfNow := 600
  yfNowAfterWait := 600

/-- C10 witness: the missing-ticker snapshot is rejected and the chain
result is the yfinance arm's. -/
theorem C10_witness :
    get_delayed_price_tiingo_intraday envC10 "AAPL" "tk" 15 = (none, none) ∧
    get_intraday_price_tiingo_or_yfinance envC10 "AAPL" "tk" 15 =
      yfinanceBranch envC10 "AAPL" 15 :=
  ⟨C10_secondary_rejects_ticker_mismatch.1 envC10 "AAPL" "tk" 15
      [("last", .jnum 5)] [] rfl rfl,
   C10_secondary_rejects_ticker_mismatch.2.2 envC10 "AAPL" "tk" 15
      (by rw [C10_secondary_rejects_ticker_mismatch.1 envC10 "AAPL" "tk" 15
        [("last", .jnum 5)] [] rfl rfl])⟩
